import Mathlib

/-!
Shallow embedding of the cleaning-and-conversion pipeline of
`src/app.py` (Retail Financial Insights dashboard app).

Modelling conventions:
* A table cell is `Cell`: `null` models pandas NaN/NaT/None, `str` a
  string cell, `num` a numeric cell (amounts modelled exactly as
  rationals), `date` a datetime cell (as produced by `pd.to_datetime`
  or by `pd.read_excel` date columns).
* A row is a structured record with the columns the pipeline touches;
  header trimming (`df.columns.str.strip()`, line 41) is modelled by the
  structured row type itself: columns are always addressed post-trim and
  are assumed present (a missing required column aborts before
  normalization and is outside this embedding).
* Python `float(...)` on the residual string is modelled by `parseFloat`
  over ℚ: the grammar of finite decimal literals with optional sign,
  fraction and exponent.  The non-finite literals (`inf`, `nan`) and
  digit-group underscores accepted by Python are outside the model.
* `pd.to_datetime(..., errors='coerce')` is modelled by `toDatetime`:
  ISO `YYYY-MM-DD` strings parse to dates (the permissive multi-format
  parser is modelled on the ISO format used by the data), other strings
  coerce to NaT (`null`), datetime cells pass through, numeric cells are
  nanoseconds since the Unix epoch (out-of-int64-bounds coerces to NaT),
  nulls stay NaT.
* Exceptions escaping any pipeline stage are caught by the single
  `except` handler at `src/app.py:160-161`; this is modelled by the
  stages returning `Except PipeError`, an error meaning the whole run
  fails and produces no records.
-/

/-- A pandas cell as seen by the pipeline. -/
inductive Cell where
  | null
  | str (s : String)
  | num (q : ℚ)
  | date (y m d : Nat)
deriving DecidableEq, Repr

/-- The errors the pipeline can raise: `invalidAmount` is the
`ValueError` raised by `float()` inside `clean_currency` (carrying the
residual string), `typeError` the `TypeError` from multiplying a
non-numeric cell by the rate. -/
inductive PipeError where
  | invalidAmount (s : String)
  | typeError
deriving DecidableEq, Repr

/-- Numeric value of a decimal digit character. -/
def digitVal (c : Char) : Nat := c.toNat - 48

/-- Value of a digit string, most significant first. -/
def digitsToNat (ds : List Char) : Nat :=
  ds.foldl (fun a c => 10 * a + digitVal c) 0

/-- All characters are decimal digits. -/
def allDigits (ds : List Char) : Bool := ds.all Char.isDigit

/-- Optional leading sign: returns (isNegative, rest). -/
def takeSign : List Char → Bool × List Char
  | '+' :: r => (false, r)
  | '-' :: r => (true, r)
  | r => (false, r)

/-- Split at the first `e`/`E` (exponent marker of a float literal). -/
def splitExp : List Char → List Char × Option (List Char)
  | [] => ([], none)
  | c :: rest =>
    if c = 'e' || c = 'E' then ([], some rest)
    else
      let p := splitExp rest
      (c :: p.1, p.2)

/-- Unsigned mantissa: `digits`, `digits.digits`, `digits.` or
`.digits`, with at least one digit overall. -/
def parseMantissa (cs : List Char) : Option ℚ :=
  match cs.splitOn '.' with
  | [ip] =>
    if allDigits ip && !ip.isEmpty then some (digitsToNat ip : ℚ) else none
  | [ip, fp] =>
    if allDigits ip && allDigits fp && !(ip.isEmpty && fp.isEmpty) then
      some ((digitsToNat ip : ℚ) + (digitsToNat fp : ℚ) / (10 : ℚ) ^ fp.length)
    else none
  | _ => none

/-- Signed exponent digits after `e`/`E`. -/
def parseExpPart (cs : List Char) : Option ℤ :=
  let p := takeSign cs
  if allDigits p.2 && !p.2.isEmpty then
    some (if p.1 then -(digitsToNat p.2 : ℤ) else (digitsToNat p.2 : ℤ))
  else none

/-- Python `float(s)` on an already-stripped string, over ℚ: finite
decimal literals `[+-]? (d+ | d+.d* | .d+) ([eE][+-]?d+)?`. -/
def parseFloat (s : String) : Option ℚ :=
  let sp := takeSign s.toList
  let me := splitExp sp.2
  match parseMantissa me.1 with
  | none => none
  | some m =>
    let sm := if sp.1 then -m else m
    match me.2 with
    | none => some sm
    | some ecs =>
      match parseExpPart ecs with
      | none => none
      | some k => some (sm * (10 : ℚ) ^ k)

/-- Python `s.replace(c, '')` for a one-character pattern: delete every
occurrence of `c`. -/
def replaceChar (s : String) (c : Char) : String :=
  String.mk (s.toList.filter (fun x => x != c))

/-- Python `s.strip()`: drop leading and trailing whitespace. -/
def pyStrip (s : String) : String :=
  String.mk (((s.toList.dropWhile Char.isWhitespace).reverse.dropWhile
    Char.isWhitespace).reverse)

/-- The symbol/separator stripping chain of `src/app.py:18`:
`value.replace('$','').replace('₹','').replace(',','')`. -/
def stripSymbols (s : String) : String :=
  replaceChar (replaceChar (replaceChar s '$') '₹') ','

/-- `clean_currency` (`src/app.py:15-19`): on a string cell, strip `$`,
`₹`, `,`, strip whitespace, and parse as a float (`ValueError` on
failure, modelled as `invalidAmount`); any non-string cell is returned
unchanged. -/
def clean_currency (v : Cell) : Except PipeError Cell :=
  match v with
  | Cell.str s =>
    let residual := pyStrip (stripSymbols s)
    match parseFloat residual with
    | some q => Except.ok (Cell.num q)
    | none => Except.error (PipeError.invalidAmount residual)
  | v => Except.ok v

/-- The static year-to-rate mapping with default of `get_ibr_rate`
(`src/app.py:26-29`): `rates.get(year, 83.0)`. -/
def ibrRates (year : ℤ) : ℚ :=
  if year = 2021 then 74.1
  else if year = 2022 then 78.6
  else if year = 2023 then 82.5
  else if year = 2024 then 83.4
  else if year = 2025 then 84.5
  else 83.0

/-- `get_ibr_rate` (`src/app.py:21-29`): look up the rate by the year
component of the date. -/
def get_ibr_rate (y _m _d : Nat) : ℚ := ibrRates (y : ℤ)

/-- Gregorian leap-year test. -/
def isLeap (y : Nat) : Bool := (y % 4 == 0 && y % 100 != 0) || y % 400 == 0

/-- Days in a month of the Gregorian calendar. -/
def daysInMonth (y m : Nat) : Nat :=
  if m = 2 then (if isLeap y then 29 else 28)
  else if m = 4 ∨ m = 6 ∨ m = 9 ∨ m = 11 then 30
  else 31

/-- ISO `YYYY-MM-DD` date parsing (the format of the data); a calendar
validity check mirrors the library parser rejecting impossible dates. -/
def parseDate (s : String) : Option Cell :=
  match s.toList with
  | [y1, y2, y3, y4, h1, m1, m2, h2, d1, d2] =>
    if (y1.isDigit && y2.isDigit && y3.isDigit && y4.isDigit
        && h1 == '-' && m1.isDigit && m2.isDigit && h2 == '-'
        && d1.isDigit && d2.isDigit) then
      let y := digitsToNat [y1, y2, y3, y4]
      let m := digitsToNat [m1, m2]
      let d := digitsToNat [d1, d2]
      if 1 ≤ m && m ≤ 12 && 1 ≤ d && d ≤ daysInMonth y m then
        some (Cell.date y m d)
      else none
    else none
  | _ => none

/-- Civil date from days since the Unix epoch (proleptic Gregorian). -/
def civilFromDays (z : ℤ) : ℤ × ℤ × ℤ :=
  let z := z + 719468
  let era := z.fdiv 146097
  let doe := z - era * 146097
  let yoe := (doe - doe.fdiv 1460 + doe.fdiv 36524 - doe.fdiv 146096).fdiv 365
  let y := yoe + era * 400
  let doy := doe - (365 * yoe + yoe.fdiv 4 - yoe.fdiv 100)
  let mp := (5 * doy + 2).fdiv 153
  let d := doy - (153 * mp + 2).fdiv 5 + 1
  let m := if mp < 10 then mp + 3 else mp - 9
  (if m ≤ 2 then y + 1 else y, m, d)

/-- A numeric cell under `pd.to_datetime`: nanoseconds since the Unix
epoch, out-of-int64-range coercing to NaT. -/
def numNsToDate (q : ℚ) : Option Cell :=
  let n : ℤ := ⌊q⌋
  if n < -(2 ^ 63) ∨ (2 ^ 63) ≤ n then none
  else
    let c := civilFromDays (n.fdiv 86400000000000)
    if 0 < c.1 then some (Cell.date c.1.toNat c.2.1.toNat c.2.2.toNat)
    else none

/-- `pd.to_datetime(..., errors='coerce')` on one cell
(`src/app.py:52`): result is always a date cell or NaT (`null`). -/
def toDatetime (c : Cell) : Cell :=
  match c with
  | Cell.str s =>
    match parseDate s with
    | some d => d
    | none => Cell.null
  | Cell.date y m d => Cell.date y m d
  | Cell.num q =>
    match numNsToDate q with
    | some d => d
    | none => Cell.null
  | Cell.null => Cell.null

/-- `fillna`: replace a null cell by the default, keep anything else. -/
def fillna (c dflt : Cell) : Cell :=
  match c with
  | Cell.null => dflt
  | c => c

/-- Is the cell NaN/NaT (what `dropna` removes)? -/
def isNull (c : Cell) : Bool :=
  match c with
  | Cell.null => true
  | _ => false

/-- Left-pad a number with zeros to a given width. -/
def padNum (n w : Nat) : String :=
  let s := toString n
  String.mk (List.replicate (w - s.length) '0') ++ s

/-- `df['Order Date'].dt.to_period('M').astype(str)` on one date
(`src/app.py:65`): the `YYYY-MM` bucket string. -/
def yearMonthStr (y m : Nat) : String :=
  padNum y 4 ++ "-" ++ padNum m 2

/-- One input row, with the columns the pipeline reads (column names
already trimmed, per `src/app.py:41`). -/
structure RawRow where
  orderDate : Cell
  category : Cell
  salesPer : Cell
  profit : Cell
  segment : Cell
  state : Cell
  quantity : Cell
  orderId : Cell
  customerId : Cell
deriving DecidableEq, Repr

/-- One exported record (`src/app.py:71-72`): the columns selected for
`to_dict(orient='records')`. -/
structure Record where
  yearMonth : String
  category : Cell
  segment : Cell
  state : Cell
  sales_INR : Cell
  sales_USD : Cell
  profit_INR : Cell
  profit_USD : Cell
  quantity : Cell
  orderId : Cell
  customerId : Cell
  ibr_Rate : ℚ
deriving DecidableEq, Repr

/-- `Series.apply f` over a column: the first raised exception aborts
the whole application (pandas evaluates rows in order). -/
def mapME {α β : Type} (f : α → Except PipeError β) : List α → Except PipeError (List β)
  | [] => Except.ok []
  | a :: l =>
    match f a with
    | Except.error e => Except.error e
    | Except.ok b =>
      match mapME f l with
      | Except.error e => Except.error e
      | Except.ok bs => Except.ok (b :: bs)

/-- Missing-value handling (`src/app.py:44-45`): `Category` filled with
`"Uncategorized"`, `Sales Per` filled with `0`. -/
def fillnaStage (t : List RawRow) : List RawRow :=
  t.map (fun r =>
    { r with category := fillna r.category (Cell.str "Uncategorized"),
             salesPer := fillna r.salesPer (Cell.num 0) })

/-- One row of `df['Sales Per'].apply(clean_currency)` (`src/app.py:48`). -/
def cleanSalesRow (r : RawRow) : Except PipeError RawRow :=
  match clean_currency r.salesPer with
  | Except.error e => Except.error e
  | Except.ok v => Except.ok { r with salesPer := v }

/-- `df['Sales Per'].apply(clean_currency)` (`src/app.py:48`). -/
def cleanSales (t : List RawRow) : Except PipeError (List RawRow) :=
  mapME cleanSalesRow t

/-- One row of `df['Profit'].apply(clean_currency)` (`src/app.py:49`). -/
def cleanProfitRow (r : RawRow) : Except PipeError RawRow :=
  match clean_currency r.profit with
  | Except.error e => Except.error e
  | Except.ok v => Except.ok { r with profit := v }

/-- `df['Profit'].apply(clean_currency)` (`src/app.py:49`). -/
def cleanProfit (t : List RawRow) : Except PipeError (List RawRow) :=
  mapME cleanProfitRow t

/-- Date processing (`src/app.py:52-53`): coerce `Order Date` to a
datetime (NaT on failure) then `dropna(subset=['Order Date'])`. -/
def dateStage (t : List RawRow) : List RawRow :=
  (t.map (fun r => { r with orderDate := toDatetime r.orderDate })).filter
    (fun r => !isNull r.orderDate)

/-- The Record Normalizer portion of the pipeline (`src/app.py:41-53`):
fill defaults, clean both currency columns (column-major, first failure
aborts), parse dates and drop invalid-date rows. -/
def normalizeTable (t : List RawRow) : Except PipeError (List RawRow) :=
  match cleanSales (fillnaStage t) with
  | Except.error e => Except.error e
  | Except.ok t2 =>
    match cleanProfit t2 with
    | Except.error e => Except.error e
    | Except.ok t3 => Except.ok (dateStage t3)

/-- Multiplying a cell by the rate (`src/app.py:62-63`): NaN propagates,
a string or datetime cell raises `TypeError`. -/
def cellMul (c : Cell) (r : ℚ) : Except PipeError Cell :=
  match c with
  | Cell.num q => Except.ok (Cell.num (q * r))
  | Cell.null => Except.ok Cell.null
  | _ => Except.error PipeError.typeError

/-- The Conversion Engine on one row (`src/app.py:56-65`): rate lookup
by year, USD copies, INR = USD × rate, `YearMonth` bucket.  The
enrichment is row-local (each derived column depends only on the row),
so the column assignments are modelled per row; a non-date `Order Date`
cannot reach this stage (dropna precedes it). -/
def enrichRow (r : RawRow) : Except PipeError Record :=
  match r.orderDate with
  | Cell.date y m d =>
    let rate := get_ibr_rate y m d
    match cellMul r.salesPer rate with
    | Except.error e => Except.error e
    | Except.ok sINR =>
      match cellMul r.profit rate with
      | Except.error e => Except.error e
      | Except.ok pINR =>
        Except.ok
          { yearMonth := yearMonthStr y m
            category := r.category
            segment := r.segment
            state := r.state
            sales_INR := sINR
            sales_USD := r.salesPer
            profit_INR := pINR
            profit_USD := r.profit
            quantity := r.quantity
            orderId := r.orderId
            customerId := r.customerId
            ibr_Rate := rate }
  | _ => Except.error PipeError.typeError

/-- The Conversion Engine over the table (`src/app.py:56-65`). -/
def enrich (t : List RawRow) : Except PipeError (List Record) :=
  mapME enrichRow t

/-- Numeric value of a cell for `df['Quantity'].sum()` (NaN skipped). -/
def cellNum (c : Cell) : ℚ :=
  match c with
  | Cell.num q => q
  | _ => 0

/-- `df['Quantity'].sum()` (`src/app.py:109`). -/
def sumQuantity (t : List RawRow) : ℚ :=
  (t.map (fun r => cellNum r.quantity)).sum

/-- What a successful run surfaces: the exported records
(`src/app.py:71-72`), the processed-record count of the success notice
(`src/app.py:67`), and the items-sold total embedded in the dashboard
(`src/app.py:109`). -/
structure RunOutput where
  records : List Record
  processedCount : Nat
  itemsSold : ℚ
deriving DecidableEq, Repr

/-- The whole pipeline run inside the `try` block (`src/app.py:39-72`):
normalization, then enrichment, then the surfaced outputs.  Any raised
error reaches the handler at `src/app.py:160-161` and the run yields
nothing else. -/
def run (t : List RawRow) : Except PipeError RunOutput :=
  match normalizeTable t with
  | Except.error e => Except.error e
  | Except.ok t4 =>
    match enrich t4 with
    | Except.error e => Except.error e
    | Except.ok recs =>
      Except.ok { records := recs, processedCount := t4.length,
                  itemsSold := sumQuantity t4 }

/-- Count of input rows whose `Order Date` fails to parse (what
`dropna` will remove). -/
def droppedCount (t : List RawRow) : Nat :=
  t.countP (fun r => isNull (toDatetime r.orderDate))

/-- A cell that `clean_currency` maps to a number or leaves as a
harmless non-string (no `ValueError`, and no `TypeError` later): numeric
or null cells, and strings that parse after stripping. -/
def amountOk (c : Cell) : Bool :=
  match c with
  | Cell.str s => (parseFloat (pyStrip (stripSymbols s))).isSome
  | Cell.date _ _ _ => false
  | _ => true

/-- A string cell whose residual after symbol stripping is not a valid
float literal (the inputs on which `clean_currency` raises). -/
def badAmountStr (c : Cell) : Bool :=
  match c with
  | Cell.str s => (parseFloat (pyStrip (stripSymbols s))).isNone
  | _ => false

/-! ## Helper lemmas -/

deriving instance DecidableEq for Except

/-- Every rate in the table (and the default) is positive. -/
theorem ibrRates_pos (y : ℤ) : 0 < ibrRates y := by
  unfold ibrRates
  repeat' split
  all_goals norm_num

/-- Destructor for a successful `enrichRow`: the row's `Order Date` is
a date and every output field is as assigned by the Conversion Engine. -/
theorem enrichRow_ok (r : RawRow) (rec : Record) (h : enrichRow r = Except.ok rec) :
    ∃ y m d, r.orderDate = Cell.date y m d ∧
      rec.ibr_Rate = get_ibr_rate y m d ∧
      rec.yearMonth = yearMonthStr y m ∧
      rec.sales_USD = r.salesPer ∧
      rec.profit_USD = r.profit ∧
      cellMul r.salesPer (get_ibr_rate y m d) = Except.ok rec.sales_INR ∧
      cellMul r.profit (get_ibr_rate y m d) = Except.ok rec.profit_INR ∧
      rec.category = r.category ∧ rec.quantity = r.quantity ∧
      rec.orderId = r.orderId := by
  unfold enrichRow at h
  split at h
  case h_2 => exact absurd h (by simp)
  case h_1 y m d hod =>
    dsimp only at h
    split at h
    case h_1 => exact absurd h (by simp)
    case h_2 sINR hsm =>
      split at h
      case h_1 => exact absurd h (by simp)
      case h_2 pINR hpm =>
        injection h with h
        subst h
        exact ⟨y, m, d, hod, rfl, rfl, rfl, rfl, hsm, hpm, rfl, rfl, rfl⟩

/-! ## Claims -/

/-- The single-row input table of the C1 scenario. -/
def scenarioTable : List RawRow :=
  [{ orderDate := Cell.str "2023-06-15", category := Cell.null,
     salesPer := Cell.str "$100", profit := Cell.str "$20",
     segment := Cell.null, state := Cell.null, quantity := Cell.num 2,
     orderId := Cell.str "A1", customerId := Cell.null }]

/-- C1: the input row with `Order Date "2023-06-15"`, missing
`Category`, `Sales Per "$100"`, `Profit "$20"`, `Quantity 2`,
`Order ID "A1"` normalizes to `Category = "Uncategorized"`,
`Sales Per = 100`, `Profit = 20`, and enriches to `IBR_Rate = 82.5`,
`Sales_USD = 100`, `Sales_INR = 8250`, `Profit_USD = 20`,
`Profit_INR = 1650`, `YearMonth = "2023-06"`. -/
theorem C1_scenario :
    normalizeTable scenarioTable = Except.ok
      [{ orderDate := Cell.date 2023 6 15, category := Cell.str "Uncategorized",
         salesPer := Cell.num 100, profit := Cell.num 20,
         segment := Cell.null, state := Cell.null, quantity := Cell.num 2,
         orderId := Cell.str "A1", customerId := Cell.null }] ∧
    run scenarioTable = Except.ok
      { records := [{ yearMonth := "2023-06", category := Cell.str "Uncategorized",
                      segment := Cell.null, state := Cell.null,
                      sales_INR := Cell.num 8250, sales_USD := Cell.num 100,
                      profit_INR := Cell.num 1650, profit_USD := Cell.num 20,
                      quantity := Cell.num 2, orderId := Cell.str "A1",
                      customerId := Cell.null, ibr_Rate := 82.5 }],
        processedCount := 1, itemsSold := 2 } :=
  ⟨by with_unfolding_all rfl, by with_unfolding_all rfl⟩

/-- The years present in the static rate mapping of `get_ibr_rate`. -/
def knownYears : List ℤ := [2021, 2022, 2023, 2024, 2025]

/-- C5: the rate lookup is total over all integer years (it always
returns one of the six table values), maps 2023 to 82.5, and returns
the default 83.0 for every year outside the static mapping, 1999 in
particular. -/
theorem C5_rate_total :
    ibrRates 2023 = 82.5 ∧ ibrRates 1999 = 83 ∧
    (∀ y : ℤ, y ∉ knownYears → ibrRates y = 83) ∧
    (∀ y : ℤ, ibrRates y = 74.1 ∨ ibrRates y = 78.6 ∨ ibrRates y = 82.5 ∨
      ibrRates y = 83.4 ∨ ibrRates y = 84.5 ∨ ibrRates y = 83) := by
  refine ⟨by norm_num [ibrRates], by norm_num [ibrRates], ?_, ?_⟩
  · intro y hy
    simp only [knownYears, List.mem_cons, List.not_mem_nil, or_false] at hy
    push_neg at hy
    obtain ⟨h1, h2, h3, h4, h5⟩ := hy
    simp only [ibrRates, h1, h2, h3, h4, h5, if_false]
    norm_num
  · intro y
    unfold ibrRates
    repeat' split
    all_goals norm_num

/-- Witness for C5 at the concrete out-of-table year 1999. -/
theorem C5_rate_total_witness :
    (1999 : ℤ) ∉ knownYears ∧ ibrRates 1999 = 83 :=
  ⟨by decide, C5_rate_total.2.2.1 1999 (by decide)⟩

/-- C6: round-trip — any enriched record satisfies
`Sales_INR / IBR_Rate = Sales_USD` within 1e-9 relative tolerance (in
the exact-rational model the two sides agree exactly). -/
theorem C6_roundtrip (r : RawRow) (rec : Record) (si su : ℚ)
    (h : enrichRow r = Except.ok rec) (hsi : rec.sales_INR = Cell.num si)
    (hsu : rec.sales_USD = Cell.num su) :
    |si / rec.ibr_Rate - su| ≤ 1 / 10 ^ 9 * |su| := by
  obtain ⟨y, m, d, hod, hrate, hym, hsu2, hpu, hsm, hpm, _⟩ := enrichRow_ok r rec h
  have hrpos : 0 < rec.ibr_Rate := hrate ▸ ibrRates_pos (y : ℤ)
  have hsp : r.salesPer = Cell.num su := by rw [← hsu2, hsu]
  rw [hsp] at hsm
  simp only [cellMul] at hsm
  injection hsm with hsm
  have hq : Cell.num (su * get_ibr_rate y m d) = Cell.num si := hsm.trans hsi
  injection hq with hq
  rw [hrate, ← hq, mul_div_assoc,
    div_self (ne_of_gt (ibrRates_pos (y : ℤ)) : get_ibr_rate y m d ≠ 0),
    mul_one, sub_self, abs_zero]
  positivity

/-- A normalized-shape row used to instantiate the round-trip claim. -/
def rtRow : RawRow :=
  { orderDate := Cell.date 2023 6 15, category := Cell.str "Furniture",
    salesPer := Cell.num 100, profit := Cell.num 20, segment := Cell.null,
    state := Cell.null, quantity := Cell.num 2, orderId := Cell.str "A1",
    customerId := Cell.null }

/-- The enriched record produced from `rtRow`. -/
def rtRec : Record :=
  { yearMonth := "2023-06", category := Cell.str "Furniture",
    segment := Cell.null, state := Cell.null, sales_INR := Cell.num 8250,
    sales_USD := Cell.num 100, profit_INR := Cell.num 1650,
    profit_USD := Cell.num 20, quantity := Cell.num 2,
    orderId := Cell.str "A1", customerId := Cell.null, ibr_Rate := 82.5 }

/-- Witness for C6 on the concrete enriched record `rtRec`. -/
theorem C6_roundtrip_witness :
    |(8250 : ℚ) / rtRec.ibr_Rate - 100| ≤ 1 / 10 ^ 9 * |(100 : ℚ)| :=
  C6_roundtrip rtRow rtRec 8250 100 (by with_unfolding_all rfl)
    (by with_unfolding_all rfl) (by with_unfolding_all rfl)

/-! ## List machinery for the stagewise proofs -/

/-- A successful `mapME` is a pointwise relation between input and
output lists. -/
theorem mapME_ok_forall2 {α β : Type} {f : α → Except PipeError β} :
    ∀ {l : List α} {l₂ : List β}, mapME f l = Except.ok l₂ →
      List.Forall₂ (fun a b => f a = Except.ok b) l l₂ := by
  intro l
  induction l with
  | nil =>
    intro l₂ h
    rw [mapME] at h
    injection h with h
    rw [← h]
    exact List.Forall₂.nil
  | cons a t ih =>
    intro l₂ h
    rw [mapME] at h
    cases hfa : f a with
    | error e => rw [hfa] at h; exact absurd h (by simp)
    | ok b =>
      rw [hfa] at h
      cases hmt : mapME f t with
      | error e => rw [hmt] at h; exact absurd h (by simp)
      | ok bs =>
        rw [hmt] at h
        injection h with h
        rw [← h]
        exact List.Forall₂.cons hfa (ih hmt)

/-- A failing `mapME` exhibits a failing element. -/
theorem mapME_error_mem {α β : Type} {f : α → Except PipeError β} :
    ∀ {l : List α} {e : PipeError}, mapME f l = Except.error e →
      ∃ a ∈ l, f a = Except.error e := by
  intro l
  induction l with
  | nil => intro e h; rw [mapME] at h; exact absurd h (by simp)
  | cons a t ih =>
    intro e h
    rw [mapME] at h
    cases hfa : f a with
    | error e₂ =>
      rw [hfa] at h
      injection h with h
      exact ⟨a, List.mem_cons_self a t, by rw [hfa, h]⟩
    | ok b =>
      rw [hfa] at h
      cases hmt : mapME f t with
      | error e₂ =>
        rw [hmt] at h
        injection h with h
        rcases ih (h ▸ hmt) with ⟨x, hx, hfx⟩
        exact ⟨x, List.mem_cons_of_mem a hx, hfx⟩
      | ok bs => rw [hmt] at h; exact absurd h (by simp)

/-- `mapME` succeeds when every element succeeds. -/
theorem mapME_ok_of_forall {α β : Type} {f : α → Except PipeError β} :
    ∀ {l : List α}, (∀ a ∈ l, ∃ b, f a = Except.ok b) →
      ∃ l₂, mapME f l = Except.ok l₂ := by
  intro l
  induction l with
  | nil => intro _; exact ⟨[], rfl⟩
  | cons a t ih =>
    intro hall
    rcases hall a (List.mem_cons_self a t) with ⟨b, hb⟩
    rcases ih (fun x hx => hall x (List.mem_cons_of_mem a hx)) with ⟨bs, hbs⟩
    exact ⟨b :: bs, by rw [mapME, hb, hbs]⟩

/-- Left-to-right membership transport along `Forall₂`. -/
theorem forall2_mem_left {α β : Type} {R : α → β → Prop}
    {l : List α} {l₂ : List β} (h : List.Forall₂ R l l₂) :
    ∀ a ∈ l, ∃ b ∈ l₂, R a b := by
  induction h with
  | nil => intro a ha; exact absurd ha (List.not_mem_nil a)
  | cons hr _ ih =>
    intro x hx
    rcases List.mem_cons.mp hx with rfl | hx
    · exact ⟨_, List.mem_cons_self _ _, hr⟩
    · rcases ih x hx with ⟨b, hb, hrb⟩
      exact ⟨b, List.mem_cons_of_mem _ hb, hrb⟩

/-- Right-to-left membership transport along `Forall₂`. -/
theorem forall2_mem_right {α β : Type} {R : α → β → Prop}
    {l : List α} {l₂ : List β} (h : List.Forall₂ R l l₂) :
    ∀ b ∈ l₂, ∃ a ∈ l, R a b := by
  induction h with
  | nil => intro b hb; exact absurd hb (List.not_mem_nil b)
  | cons hr _ ih =>
    intro x hx
    rcases List.mem_cons.mp hx with rfl | hx
    · exact ⟨_, List.mem_cons_self _ _, hr⟩
    · rcases ih x hx with ⟨a, ha, hra⟩
      exact ⟨a, List.mem_cons_of_mem _ ha, hra⟩

/-- A `Forall₂` relation that preserves a projection makes the mapped
lists equal. -/
theorem forall2_map_eq {α β γ : Type} {R : α → β → Prop} {g : α → γ}
    {g₂ : β → γ} (hR : ∀ a b, R a b → g₂ b = g a) :
    ∀ {l : List α} {l₂ : List β}, List.Forall₂ R l l₂ →
      l₂.map g₂ = l.map g := by
  intro l l₂ h
  induction h with
  | nil => rfl
  | cons hr _ ih => simp only [List.map_cons, ih, hR _ _ hr]

/-- The rows kept by a Boolean filter plus the rows removed make up the
whole list. -/
theorem length_filter_add_length_filter_neg {α : Type} (p : α → Bool) :
    ∀ l : List α,
      (l.filter p).length + (l.filter (fun a => !p a)).length = l.length := by
  intro l
  induction l with
  | nil => rfl
  | cons a t ih =>
    simp only [List.filter_cons]
    cases hp : p a <;> simp only [hp, Bool.not_true, Bool.not_false] <;>
      simp <;> omega

/-! ## Stage destructors -/

/-- A successful `cleanSalesRow` parses `Sales Per` and leaves every
other column unchanged. -/
theorem cleanSalesRow_ok {r r₂ : RawRow} (h : cleanSalesRow r = Except.ok r₂) :
    clean_currency r.salesPer = Except.ok r₂.salesPer ∧
    r₂.orderDate = r.orderDate ∧ r₂.category = r.category ∧
    r₂.profit = r.profit ∧ r₂.segment = r.segment ∧ r₂.state = r.state ∧
    r₂.quantity = r.quantity ∧ r₂.orderId = r.orderId ∧
    r₂.customerId = r.customerId := by
  unfold cleanSalesRow at h
  cases hc : clean_currency r.salesPer with
  | error e => rw [hc] at h; exact absurd h (by simp)
  | ok v =>
    rw [hc] at h
    injection h with h
    subst h
    exact ⟨rfl, rfl, rfl, rfl, rfl, rfl, rfl, rfl, rfl⟩

/-- A successful `cleanProfitRow` parses `Profit` and leaves every
other column unchanged. -/
theorem cleanProfitRow_ok {r r₂ : RawRow} (h : cleanProfitRow r = Except.ok r₂) :
    clean_currency r.profit = Except.ok r₂.profit ∧
    r₂.orderDate = r.orderDate ∧ r₂.category = r.category ∧
    r₂.salesPer = r.salesPer ∧ r₂.segment = r.segment ∧ r₂.state = r.state ∧
    r₂.quantity = r.quantity ∧ r₂.orderId = r.orderId ∧
    r₂.customerId = r.customerId := by
  unfold cleanProfitRow at h
  cases hc : clean_currency r.profit with
  | error e => rw [hc] at h; exact absurd h (by simp)
  | ok v =>
    rw [hc] at h
    injection h with h
    subst h
    exact ⟨rfl, rfl, rfl, rfl, rfl, rfl, rfl, rfl, rfl⟩

/-- The only error `clean_currency` raises is `invalidAmount`. -/
theorem clean_currency_error {c : Cell} {e : PipeError}
    (h : clean_currency c = Except.error e) :
    ∃ s, e = PipeError.invalidAmount s := by
  cases c with
  | str s =>
    unfold clean_currency at h
    dsimp only at h
    split at h
    · exact absurd h (by simp)
    · injection h with h
      exact ⟨pyStrip (stripSymbols s), h.symm⟩
  | null => exact absurd h (by simp [clean_currency])
  | num q => exact absurd h (by simp [clean_currency])
  | date y m d => exact absurd h (by simp [clean_currency])

/-- `clean_currency` raises on a string whose residual does not parse. -/
theorem clean_currency_bad {s : String} (h : badAmountStr (Cell.str s) = true) :
    clean_currency (Cell.str s) =
      Except.error (PipeError.invalidAmount (pyStrip (stripSymbols s))) := by
  simp only [badAmountStr] at h
  cases hp : parseFloat (pyStrip (stripSymbols s)) with
  | some q => rw [hp] at h; exact absurd h (by simp)
  | none => simp [clean_currency, hp]

/-- After `fillna 0` and `clean_currency`, an `amountOk` `Sales Per`
cell is always numeric. -/
theorem clean_sales_num {c : Cell} (h : amountOk c = true) :
    ∃ q, clean_currency (fillna c (Cell.num 0)) = Except.ok (Cell.num q) := by
  cases c with
  | null => exact ⟨0, rfl⟩
  | num q => exact ⟨q, rfl⟩
  | str s =>
    simp only [amountOk] at h
    cases hp : parseFloat (pyStrip (stripSymbols s)) with
    | none => rw [hp] at h; exact absurd h (by simp)
    | some q => exact ⟨q, by simp [fillna, clean_currency, hp]⟩
  | date y m d => exact absurd h (by simp [amountOk])

/-- After `clean_currency`, an `amountOk` `Profit` cell is numeric or
null (null is passed through unchanged, never defaulted). -/
theorem clean_profit_shape {c : Cell} (h : amountOk c = true) :
    ∃ v, clean_currency c = Except.ok v ∧
      (v = Cell.null ∧ c = Cell.null ∨ ∃ q, v = Cell.num q) := by
  cases c with
  | null => exact ⟨Cell.null, rfl, Or.inl ⟨rfl, rfl⟩⟩
  | num q => exact ⟨Cell.num q, rfl, Or.inr ⟨q, rfl⟩⟩
  | str s =>
    simp only [amountOk] at h
    cases hp : parseFloat (pyStrip (stripSymbols s)) with
    | none => rw [hp] at h; exact absurd h (by simp)
    | some q =>
      exact ⟨Cell.num q, by simp [clean_currency, hp], Or.inr ⟨q, rfl⟩⟩
  | date y m d => exact absurd h (by simp [amountOk])

/-- `parseDate` only produces date cells. -/
theorem parseDate_shape {s : String} {c : Cell} (h : parseDate s = some c) :
    ∃ y m d, c = Cell.date y m d := by
  unfold parseDate at h
  split at h
  · split at h
    · dsimp only at h
      split at h
      · injection h with h
        exact ⟨_, _, _, h.symm⟩
      · exact absurd h (by simp)
    · exact absurd h (by simp)
  · exact absurd h (by simp)

/-- `numNsToDate` only produces date cells. -/
theorem numNsToDate_shape {q : ℚ} {c : Cell} (h : numNsToDate q = some c) :
    ∃ y m d, c = Cell.date y m d := by
  unfold numNsToDate at h
  dsimp only at h
  split at h
  · exact absurd h (by simp)
  · split at h
    · injection h with h
      exact ⟨_, _, _, h.symm⟩
    · exact absurd h (by simp)

/-- The coerced `Order Date` is a date cell or NaT. -/
theorem toDatetime_shape (c : Cell) :
    toDatetime c = Cell.null ∨ ∃ y m d, toDatetime c = Cell.date y m d := by
  cases c with
  | null => exact Or.inl rfl
  | date y m d => exact Or.inr ⟨y, m, d, rfl⟩
  | str s =>
    cases hp : parseDate s with
    | none => exact Or.inl (by simp [toDatetime, hp])
    | some c₂ =>
      rcases parseDate_shape hp with ⟨y, m, d, rfl⟩
      exact Or.inr ⟨y, m, d, by simp [toDatetime, hp]⟩
  | num q =>
    cases hp : numNsToDate q with
    | none => exact Or.inl (by simp [toDatetime, hp])
    | some c₂ =>
      rcases numNsToDate_shape hp with ⟨y, m, d, rfl⟩
      exact Or.inr ⟨y, m, d, by simp [toDatetime, hp]⟩

/-- Every row surviving the date stage carries a real date. -/
theorem dateStage_mem {t : List RawRow} {r : RawRow} (h : r ∈ dateStage t) :
    ∃ y m d, r.orderDate = Cell.date y m d := by
  unfold dateStage at h
  rcases List.mem_filter.mp h with ⟨hmem, hp⟩
  rcases List.mem_map.mp hmem with ⟨r0, _, rfl⟩
  rcases toDatetime_shape r0.orderDate with hnull | ⟨y, m, d, hd⟩
  · rw [show ({ r0 with orderDate := toDatetime r0.orderDate } : RawRow).orderDate
        = toDatetime r0.orderDate from rfl, hnull] at hp
    exact absurd hp (by simp [isNull])
  · exact ⟨y, m, d, hd⟩

/-- Destructor for a successful `normalizeTable`. -/
theorem normalizeTable_ok {t t₄ : List RawRow}
    (h : normalizeTable t = Except.ok t₄) :
    ∃ t₂ t₃, cleanSales (fillnaStage t) = Except.ok t₂ ∧
      cleanProfit t₂ = Except.ok t₃ ∧ t₄ = dateStage t₃ := by
  unfold normalizeTable at h
  split at h
  · exact absurd h (by simp)
  · next t₂ h₂ =>
    split at h
    · exact absurd h (by simp)
    · next t₃ h₃ =>
      injection h with h
      exact ⟨t₂, t₃, h₂, h₃, h.symm⟩

/-- Destructor for a successful `run`. -/
theorem run_ok {t : List RawRow} {out : RunOutput} (h : run t = Except.ok out) :
    ∃ t₄ recs, normalizeTable t = Except.ok t₄ ∧ enrich t₄ = Except.ok recs ∧
      out = { records := recs, processedCount := t₄.length,
              itemsSold := sumQuantity t₄ } := by
  unfold run at h
  split at h
  · exact absurd h (by simp)
  · next t₄ h₄ =>
    split at h
    · exact absurd h (by simp)
    · next recs hrecs =>
      injection h with h
      exact ⟨t₄, recs, h₄, hrecs, h.symm⟩

/-- An error in the `Sales Per` column pass aborts the run with it. -/
theorem run_error_cleanSales {t : List RawRow} {e : PipeError}
    (h : cleanSales (fillnaStage t) = Except.error e) : run t = Except.error e := by
  simp [run, normalizeTable, h]

/-- An error in the `Profit` column pass aborts the run with it. -/
theorem run_error_cleanProfit {t t₂ : List RawRow} {e : PipeError}
    (h₂ : cleanSales (fillnaStage t) = Except.ok t₂)
    (h : cleanProfit t₂ = Except.error e) : run t = Except.error e := by
  simp [run, normalizeTable, h₂, h]

/-- A failing `cleanSalesRow` fails with `invalidAmount`. -/
theorem cleanSalesRow_error {r : RawRow} {e : PipeError}
    (h : cleanSalesRow r = Except.error e) :
    ∃ s, e = PipeError.invalidAmount s := by
  unfold cleanSalesRow at h
  cases hc : clean_currency r.salesPer with
  | error e₂ =>
    rw [hc] at h
    injection h with h
    exact h ▸ clean_currency_error hc
  | ok v => rw [hc] at h; exact absurd h (by simp)

/-- A failing `cleanProfitRow` fails with `invalidAmount`. -/
theorem cleanProfitRow_error {r : RawRow} {e : PipeError}
    (h : cleanProfitRow r = Except.error e) :
    ∃ s, e = PipeError.invalidAmount s := by
  unfold cleanProfitRow at h
  cases hc : clean_currency r.profit with
  | error e₂ =>
    rw [hc] at h
    injection h with h
    exact h ▸ clean_currency_error hc
  | ok v => rw [hc] at h; exact absurd h (by simp)

/-- A bad amount cell is a string, so `fillna` leaves it alone. -/
theorem fillna_bad {c : Cell} (h : badAmountStr c = true) (dflt : Cell) :
    fillna c dflt = c := by
  cases c with
  | str s => rfl
  | null => exact absurd h (by simp [badAmountStr])
  | num q => exact absurd h (by simp [badAmountStr])
  | date y m d => exact absurd h (by simp [badAmountStr])

/-- `clean_currency` fails on every bad amount cell. -/
theorem clean_currency_bad_cell {c : Cell} (h : badAmountStr c = true) :
    ∃ s, clean_currency c = Except.error (PipeError.invalidAmount s) := by
  cases c with
  | str s => exact ⟨pyStrip (stripSymbols s), clean_currency_bad h⟩
  | null => exact absurd h (by simp [badAmountStr])
  | num q => exact absurd h (by simp [badAmountStr])
  | date y m d => exact absurd h (by simp [badAmountStr])

/-- If some row carries an unparseable `Sales Per` or `Profit` string,
the run aborts with `invalidAmount` (the currency passes run before the
date stage ever drops a row, and the boundary handler sees the raised
error). -/
theorem run_fails_on_bad_amount {t : List RawRow} {r : RawRow} (hr : r ∈ t)
    (hbad : badAmountStr r.salesPer = true ∨ badAmountStr r.profit = true) :
    ∃ s, run t = Except.error (PipeError.invalidAmount s) := by
  have hr1 : ({ r with
      category := fillna r.category (Cell.str "Uncategorized")
      salesPer := fillna r.salesPer (Cell.num 0) } : RawRow)
      ∈ fillnaStage t := List.mem_map_of_mem _ hr
  cases hcs : cleanSales (fillnaStage t) with
  | error e =>
    rcases mapME_error_mem hcs with ⟨a, _, ha⟩
    rcases cleanSalesRow_error ha with ⟨s, rfl⟩
    exact ⟨s, run_error_cleanSales hcs⟩
  | ok t₂ =>
    rcases hbad with hbs | hbp
    · rcases forall2_mem_left (mapME_ok_forall2 hcs) _ hr1 with ⟨b, _, hb⟩
      rcases cleanSalesRow_ok hb with ⟨hcc, _⟩
      rw [show ({ r with
            category := fillna r.category (Cell.str "Uncategorized")
            salesPer := fillna r.salesPer (Cell.num 0) } : RawRow).salesPer
          = fillna r.salesPer (Cell.num 0) from rfl, fillna_bad hbs] at hcc
      rcases clean_currency_bad_cell hbs with ⟨s, hs⟩
      rw [hs] at hcc
      exact absurd hcc (by simp)
    · rcases forall2_mem_left (mapME_ok_forall2 hcs) _ hr1 with ⟨r2, hr2, hb⟩
      have hp2 : r2.profit = r.profit := (cleanSalesRow_ok hb).2.2.2.1
      cases hcp : cleanProfit t₂ with
      | error e =>
        rcases mapME_error_mem hcp with ⟨a, _, ha⟩
        rcases cleanProfitRow_error ha with ⟨s, rfl⟩
        exact ⟨s, run_error_cleanProfit hcs hcp⟩
      | ok t₃ =>
        rcases forall2_mem_left (mapME_ok_forall2 hcp) _ hr2 with ⟨b, _, hb₂⟩
        have hcc : clean_currency r2.profit = Except.ok b.profit :=
          (cleanProfitRow_ok hb₂).1
        rw [hp2] at hcc
        rcases clean_currency_bad_cell hbp with ⟨s, hs⟩
        rw [hs] at hcc
        exact absurd hcc (by simp)

/-- C2: if any row's `Sales Per` or `Profit` string fails to parse
after stripping `$`, `₹`, `,` and whitespace, the `ValueError`
(`invalidAmount`) propagates to the run boundary and the whole run
fails, producing no enriched records. -/
theorem C2_invalid_amount_aborts (t : List RawRow)
    (h : ∃ r ∈ t, badAmountStr r.salesPer = true ∨ badAmountStr r.profit = true) :
    ∃ s, run t = Except.error (PipeError.invalidAmount s) := by
  rcases h with ⟨r, hr, hbad⟩
  exact run_fails_on_bad_amount hr hbad

/-- A table whose single row has `Profit = "free"`. -/
def badProfitTable : List RawRow :=
  [{ orderDate := Cell.str "2023-06-15", category := Cell.str "Office",
     salesPer := Cell.str "$100", profit := Cell.str "free",
     segment := Cell.null, state := Cell.null, quantity := Cell.num 1,
     orderId := Cell.str "B1", customerId := Cell.null }]

/-- Witness for C2 on the `Profit = "free"` table. -/
theorem C2_invalid_amount_aborts_witness :
    (∃ r ∈ badProfitTable,
      badAmountStr r.salesPer = true ∨ badAmountStr r.profit = true) ∧
    ∃ s, run badProfitTable = Except.error (PipeError.invalidAmount s) :=
  ⟨⟨_, List.mem_cons_self _ _, Or.inr (by with_unfolding_all rfl)⟩,
   C2_invalid_amount_aborts badProfitTable
     ⟨_, List.mem_cons_self _ _, Or.inr (by with_unfolding_all rfl)⟩⟩

/-- C10: the currency passes run before date coercion and `dropna`, so
a row with an unparseable amount aborts the whole run with
`invalidAmount` even when that same row's `Order Date` is invalid and
the row would otherwise have been silently dropped. -/
theorem C10_currency_precedes_dates (t : List RawRow) (r : RawRow)
    (hr : r ∈ t)
    (hbad : badAmountStr r.salesPer = true ∨ badAmountStr r.profit = true)
    (_hdate : isNull (toDatetime r.orderDate) = true) :
    ∃ s, run t = Except.error (PipeError.invalidAmount s) :=
  run_fails_on_bad_amount hr hbad

/-- A table whose single row has both an unparseable `Profit` and an
unparseable `Order Date`. -/
def badBothTable : List RawRow :=
  [{ orderDate := Cell.str "not-a-date", category := Cell.str "Office",
     salesPer := Cell.str "$100", profit := Cell.str "free",
     segment := Cell.null, state := Cell.null, quantity := Cell.num 1,
     orderId := Cell.str "B2", customerId := Cell.null }]

/-- Witness for C10 on a row with bad amount and bad date. -/
theorem C10_currency_precedes_dates_witness :
    ∃ s, run badBothTable = Except.error (PipeError.invalidAmount s) :=
  C10_currency_precedes_dates badBothTable _ (List.mem_cons_self _ _)
    (Or.inr (by with_unfolding_all rfl)) (by with_unfolding_all rfl)

/-- The fillna stage does not touch `Order Date` or `Quantity`. -/
theorem fillnaStage_dateQuantity (t : List RawRow) :
    (fillnaStage t).map (fun r => (r.orderDate, r.quantity)) =
      t.map (fun r => (r.orderDate, r.quantity)) := by
  unfold fillnaStage
  rw [List.map_map]
  rfl

/-- The `Sales Per` pass does not touch `Order Date` or `Quantity`. -/
theorem cleanSales_dateQuantity {t t₂ : List RawRow}
    (h : cleanSales t = Except.ok t₂) :
    t₂.map (fun r => (r.orderDate, r.quantity)) =
      t.map (fun r => (r.orderDate, r.quantity)) := by
  refine forall2_map_eq ?_ (mapME_ok_forall2 h)
  intro a b hb
  rcases cleanSalesRow_ok hb with ⟨_, h1, _, _, _, _, h2, _⟩
  rw [h1, h2]

/-- The `Profit` pass does not touch `Order Date` or `Quantity`. -/
theorem cleanProfit_dateQuantity {t t₂ : List RawRow}
    (h : cleanProfit t = Except.ok t₂) :
    t₂.map (fun r => (r.orderDate, r.quantity)) =
      t.map (fun r => (r.orderDate, r.quantity)) := by
  refine forall2_map_eq ?_ (mapME_ok_forall2 h)
  intro a b hb
  rcases cleanProfitRow_ok hb with ⟨_, h1, _, _, _, _, h2, _⟩
  rw [h1, h2]

/-- `Order Date` and `Quantity` survive the whole pre-date pipeline
unchanged. -/
theorem predate_dateQuantity {t t₂ t₃ : List RawRow}
    (h₂ : cleanSales (fillnaStage t) = Except.ok t₂)
    (h₃ : cleanProfit t₂ = Except.ok t₃) :
    t₃.map (fun r => (r.orderDate, r.quantity)) =
      t.map (fun r => (r.orderDate, r.quantity)) := by
  rw [cleanProfit_dateQuantity h₃, cleanSales_dateQuantity h₂,
    fillnaStage_dateQuantity]

/-- The date stage keeps exactly the rows whose coerced `Order Date`
is not NaT. -/
theorem dateStage_length (u : List RawRow) :
    (dateStage u).length =
      u.length - u.countP (fun r => isNull (toDatetime r.orderDate)) := by
  unfold dateStage
  have hadd := length_filter_add_length_filter_neg
    (fun r => !isNull r.orderDate)
    (u.map (fun r => { r with orderDate := toDatetime r.orderDate }))
  have hneg : ((u.map (fun r => { r with orderDate := toDatetime r.orderDate })).filter
        (fun a => !(!isNull a.orderDate))).length =
      u.countP (fun r => isNull (toDatetime r.orderDate)) := by
    rw [← List.countP_eq_length_filter, List.countP_map]
    refine List.countP_congr ?_
    intro a _
    simp
  rw [hneg, List.length_map] at hadd
  omega

/-- countP of NaT dates only depends on the `Order Date` column. -/
theorem countP_null_of_dateQuantity {u t : List RawRow}
    (h : u.map (fun r => (r.orderDate, r.quantity)) =
      t.map (fun r => (r.orderDate, r.quantity))) :
    u.countP (fun r => isNull (toDatetime r.orderDate)) =
      t.countP (fun r => isNull (toDatetime r.orderDate)) := by
  have h₂ := congrArg
    (List.countP (fun c : Cell × Cell => isNull (toDatetime c.1))) h
  rw [List.countP_map, List.countP_map] at h₂
  exact h₂

/-- C3: on every successful run the number of enriched records equals
the raw row count minus the count of rows whose `Order Date` failed to
parse; the dropped rows are only counted, and every surviving record
carries a real date (its `YearMonth`/rate come from one). -/
theorem C3_row_count_invariant (t : List RawRow) (out : RunOutput)
    (h : run t = Except.ok out) :
    out.records.length = t.length - droppedCount t ∧
    ∀ rec ∈ out.records, ∃ y m d,
      rec.yearMonth = yearMonthStr y m ∧ rec.ibr_Rate = get_ibr_rate y m d := by
  rcases run_ok h with ⟨t₄, recs, hn, he, rfl⟩
  rcases normalizeTable_ok hn with ⟨t₂, t₃, h₂, h₃, rfl⟩
  constructor
  · have hlen : recs.length = (dateStage t₃).length :=
      (List.Forall₂.length_eq (mapME_ok_forall2 he)).symm
    have hdq := predate_dateQuantity h₂ h₃
    have hlen3 : t₃.length = t.length := by
      have := congrArg List.length hdq
      rwa [List.length_map, List.length_map] at this
    have hcount := countP_null_of_dateQuantity hdq
    show recs.length = t.length - droppedCount t
    rw [hlen, dateStage_length, hlen3, hcount, droppedCount]
  · intro rec hrec
    rcases forall2_mem_right (mapME_ok_forall2 he) rec hrec with ⟨a, _, hae⟩
    rcases enrichRow_ok a rec hae with ⟨y, m, d, _, hrate, hym, _⟩
    exact ⟨y, m, d, hym, hrate⟩

/-- A two-row table: one valid row and one whose `Order Date` cannot
be parsed. -/
def mixedDateTable : List RawRow :=
  [{ orderDate := Cell.str "2023-06-15", category := Cell.str "Office",
     salesPer := Cell.num 50, profit := Cell.num 5, segment := Cell.null,
     state := Cell.null, quantity := Cell.num 3, orderId := Cell.str "D1",
     customerId := Cell.null },
   { orderDate := Cell.str "not-a-date", category := Cell.str "Office",
     salesPer := Cell.num 60, profit := Cell.num 6, segment := Cell.null,
     state := Cell.null, quantity := Cell.num 4, orderId := Cell.str "D2",
     customerId := Cell.null }]

/-- The single record enriched from `mixedDateTable`. -/
def mixedDateRecord : Record :=
  { yearMonth := "2023-06", category := Cell.str "Office",
    segment := Cell.null, state := Cell.null, sales_INR := Cell.num 4125,
    sales_USD := Cell.num 50, profit_INR := Cell.num (825 / 2),
    profit_USD := Cell.num 5, quantity := Cell.num 3,
    orderId := Cell.str "D1", customerId := Cell.null, ibr_Rate := 82.5 }

/-- The enriched output of `mixedDateTable`. -/
def mixedDateOutput : RunOutput :=
  { records := [mixedDateRecord], processedCount := 1, itemsSold := 3 }

/-- Witness for C3: the bad-date row is dropped silently, not an
error — two raw rows, one dropped, one enriched record. -/
theorem C3_row_count_invariant_witness :
    run mixedDateTable = Except.ok mixedDateOutput ∧
    (mixedDateOutput.records.length =
        mixedDateTable.length - droppedCount mixedDateTable ∧
      ∀ rec ∈ mixedDateOutput.records, ∃ y m d,
        rec.yearMonth = yearMonthStr y m ∧ rec.ibr_Rate = get_ibr_rate y m d) ∧
    mixedDateOutput.records.length = 1 ∧ mixedDateTable.length = 2 ∧
    droppedCount mixedDateTable = 1 := by
  refine ⟨by with_unfolding_all rfl, ?_, by with_unfolding_all rfl,
    by with_unfolding_all rfl, by with_unfolding_all rfl⟩
  exact C3_row_count_invariant mixedDateTable _ (by with_unfolding_all rfl)

/-- Filtering a mapped list is mapping the filtered list. -/
theorem filter_map_comm {α β : Type} (f : α → β) (p : β → Bool) :
    ∀ l : List α, (l.map f).filter p = (l.filter (fun a => p (f a))).map f := by
  intro l
  induction l with
  | nil => rfl
  | cons a tl ih =>
    simp only [List.map_cons, List.filter_cons]
    cases hp : p (f a) <;> simp [hp, ih]

/-- The quantities surviving the date stage are the quantities of the
rows with a parseable date. -/
theorem dateStage_quantities (u : List RawRow) :
    (dateStage u).map (fun r => cellNum r.quantity) =
      (u.filter (fun r => !isNull (toDatetime r.orderDate))).map
        (fun r => cellNum r.quantity) := by
  unfold dateStage
  rw [filter_map_comm, List.map_map]
  rfl

/-- The retained quantities only depend on the `Order Date` and
`Quantity` columns. -/
theorem quantities_of_dateQuantity {u t : List RawRow}
    (h : u.map (fun r => (r.orderDate, r.quantity)) =
      t.map (fun r => (r.orderDate, r.quantity))) :
    (u.filter (fun r => !isNull (toDatetime r.orderDate))).map
        (fun r => cellNum r.quantity) =
      (t.filter (fun r => !isNull (toDatetime r.orderDate))).map
        (fun r => cellNum r.quantity) := by
  induction u generalizing t with
  | nil =>
    cases t with
    | nil => rfl
    | cons b tb => exact absurd h (by simp)
  | cons a ta ih =>
    cases t with
    | nil => exact absurd h (by simp)
    | cons b tb =>
      simp only [List.map_cons, List.cons.injEq, Prod.mk.injEq] at h
      obtain ⟨⟨hod, hq⟩, htail⟩ := h
      simp only [List.filter_cons, hod, hq]
      cases hp : !isNull (toDatetime b.orderDate) <;>
        simp [hp, ih htail, hq]

/-- C8 (amended): a successful run surfaces, alongside the records, the
retained-row count (the success notice) and the total quantity over the
retained rows (the dashboard); the total input row count and
dropped-row count are not part of the output. -/
theorem C8_summary_surfaced (t : List RawRow) (out : RunOutput)
    (h : run t = Except.ok out) :
    out.processedCount = out.records.length ∧
    out.processedCount = t.length - droppedCount t ∧
    out.itemsSold = sumQuantity (t.filter
      (fun r => !isNull (toDatetime r.orderDate))) := by
  rcases run_ok h with ⟨t₄, recs, hn, he, rfl⟩
  rcases normalizeTable_ok hn with ⟨t₂, t₃, h₂, h₃, rfl⟩
  have hdq := predate_dateQuantity h₂ h₃
  refine ⟨(List.Forall₂.length_eq (mapME_ok_forall2 he)), ?_, ?_⟩
  · have hlen3 : t₃.length = t.length := by
      have := congrArg List.length hdq
      rwa [List.length_map, List.length_map] at this
    show (dateStage t₃).length = t.length - droppedCount t
    rw [dateStage_length, hlen3, countP_null_of_dateQuantity hdq, droppedCount]
  · show sumQuantity (dateStage t₃) = _
    unfold sumQuantity
    rw [dateStage_quantities, quantities_of_dateQuantity hdq]

/-- The valid first row of `mixedDateTable` alone. -/
def goodRowTable : List RawRow :=
  [{ orderDate := Cell.str "2023-06-15", category := Cell.str "Office",
     salesPer := Cell.num 50, profit := Cell.num 5, segment := Cell.null,
     state := Cell.null, quantity := Cell.num 3, orderId := Cell.str "D1",
     customerId := Cell.null }]

/-- C8 counterexample: two inputs with different total row counts (1
vs 2) and different dropped-row counts (0 vs 1) produce identical run
outputs, so the run's output cannot contain the total input row count
or the dropped-row count claimed for the summary. -/
theorem C8_summary_counterexample :
    run goodRowTable = run mixedDateTable ∧
    goodRowTable.length = 1 ∧ mixedDateTable.length = 2 ∧
    droppedCount goodRowTable = 0 ∧ droppedCount mixedDateTable = 1 :=
  ⟨by with_unfolding_all rfl, rfl, rfl, by with_unfolding_all rfl,
   by with_unfolding_all rfl⟩

/-- Witness for the amended C8 on `mixedDateTable`. -/
theorem C8_summary_surfaced_witness :
    mixedDateOutput.processedCount = mixedDateOutput.records.length ∧
    mixedDateOutput.processedCount =
      mixedDateTable.length - droppedCount mixedDateTable ∧
    mixedDateOutput.itemsSold = sumQuantity (mixedDateTable.filter
      (fun r => !isNull (toDatetime r.orderDate))) :=
  C8_summary_surfaced mixedDateTable mixedDateOutput (by with_unfolding_all rfl)

/-- `enrichRow` succeeds on a normalized-shape row: a real date, a
numeric `Sales Per`, and a numeric-or-null `Profit`. -/
theorem enrichRow_ok_of {r : RawRow}
    (hdate : ∃ y m d, r.orderDate = Cell.date y m d)
    (hsp : ∃ q, r.salesPer = Cell.num q)
    (hpf : r.profit = Cell.null ∨ ∃ q, r.profit = Cell.num q) :
    ∃ rec, enrichRow r = Except.ok rec := by
  rcases hdate with ⟨y, m, d, hod⟩
  rcases hsp with ⟨q, hq⟩
  rcases hpf with hn | ⟨qp, hqp⟩
  · simp only [enrichRow, hod, hq, hn, cellMul]
    exact ⟨_, rfl⟩
  · simp only [enrichRow, hod, hq, hqp, cellMul]
    exact ⟨_, rfl⟩

/-- Every row of `cleanSales (fillnaStage t)` has a numeric `Sales Per`
and carries the profit of its source row, when all amounts are OK. -/
theorem run_ok_of_amountOk (t : List RawRow)
    (hall : ∀ r ∈ t, amountOk r.salesPer = true ∧ amountOk r.profit = true) :
    ∃ out, run t = Except.ok out := by
  have hcs : ∃ t₂, cleanSales (fillnaStage t) = Except.ok t₂ := by
    refine mapME_ok_of_forall ?_
    intro a ha
    rcases List.mem_map.mp ha with ⟨r, hr, rfl⟩
    rcases clean_sales_num (hall r hr).1 with ⟨q, hq⟩
    exact ⟨_, by unfold cleanSalesRow; rw [show ({ r with
      category := fillna r.category (Cell.str "Uncategorized")
      salesPer := fillna r.salesPer (Cell.num 0) } : RawRow).salesPer
        = fillna r.salesPer (Cell.num 0) from rfl, hq]⟩
  rcases hcs with ⟨t₂, hcs⟩
  have hsrc₂ : ∀ a ∈ t₂, (∃ q, a.salesPer = Cell.num q) ∧
      amountOk a.profit = true := by
    intro a ha
    rcases forall2_mem_right (mapME_ok_forall2 hcs) a ha with ⟨r1, hr1, hb⟩
    rcases List.mem_map.mp hr1 with ⟨r, hr, rfl⟩
    rcases cleanSalesRow_ok hb with ⟨hcc, _, _, hpf, _⟩
    constructor
    · rcases clean_sales_num (hall r hr).1 with ⟨q, hq⟩
      rw [show ({ r with
          category := fillna r.category (Cell.str "Uncategorized")
          salesPer := fillna r.salesPer (Cell.num 0) } : RawRow).salesPer
          = fillna r.salesPer (Cell.num 0) from rfl, hq] at hcc
      injection hcc with hcc
      exact ⟨q, hcc.symm⟩
    · rw [hpf]
      exact (hall r hr).2
  have hcp : ∃ t₃, cleanProfit t₂ = Except.ok t₃ := by
    refine mapME_ok_of_forall ?_
    intro a ha
    rcases clean_profit_shape (hsrc₂ a ha).2 with ⟨v, hv, _⟩
    exact ⟨_, by unfold cleanProfitRow; rw [hv]⟩
  rcases hcp with ⟨t₃, hcp⟩
  have hsrc₃ : ∀ a ∈ t₃, (∃ q, a.salesPer = Cell.num q) ∧
      (a.profit = Cell.null ∨ ∃ q, a.profit = Cell.num q) := by
    intro a ha
    rcases forall2_mem_right (mapME_ok_forall2 hcp) a ha with ⟨r2, hr2, hb⟩
    rcases cleanProfitRow_ok hb with ⟨hcc, _, _, hsp, _⟩
    refine ⟨hsp ▸ (hsrc₂ r2 hr2).1, ?_⟩
    rcases clean_profit_shape (hsrc₂ r2 hr2).2 with ⟨v, hv, hvshape⟩
    rw [hv] at hcc
    injection hcc with hcc
    rcases hvshape with ⟨hvn, _⟩ | ⟨q, hq⟩
    · exact Or.inl (hcc ▸ hvn)
    · exact Or.inr ⟨q, hcc ▸ hq⟩
  have hen : ∃ recs, enrich (dateStage t₃) = Except.ok recs := by
    refine mapME_ok_of_forall ?_
    intro a ha
    have hdate := dateStage_mem ha
    rcases List.mem_filter.mp ha with ⟨hmem, _⟩
    rcases List.mem_map.mp hmem with ⟨r3, hr3, rfl⟩
    exact enrichRow_ok_of hdate (hsrc₃ r3 hr3).1 (hsrc₃ r3 hr3).2
  rcases hen with ⟨recs, hen⟩
  simp only [run, normalizeTable, hcs, hcp, hen]
  exact ⟨_, rfl⟩

/-- A row with a null `Profit` and a parseable date reaches the output
with null `Profit_USD` and `Profit_INR` (NaN in pandas) and its own
`Order ID`. -/
theorem null_profit_surfaces {t : List RawRow} {out : RunOutput} {r : RawRow}
    (h : run t = Except.ok out) (hr : r ∈ t) (hpn : r.profit = Cell.null)
    (hdate : isNull (toDatetime r.orderDate) = false) :
    ∃ rec ∈ out.records, rec.profit_USD = Cell.null ∧
      rec.profit_INR = Cell.null ∧ rec.orderId = r.orderId := by
  rcases run_ok h with ⟨t₄, recs, hn, he, rfl⟩
  rcases normalizeTable_ok hn with ⟨t₂, t₃, h₂, h₃, rfl⟩
  have hr1 : ({ r with
      category := fillna r.category (Cell.str "Uncategorized")
      salesPer := fillna r.salesPer (Cell.num 0) } : RawRow)
      ∈ fillnaStage t := List.mem_map_of_mem _ hr
  rcases forall2_mem_left (mapME_ok_forall2 h₂) _ hr1 with ⟨r2, hr2, hb2⟩
  rcases cleanSalesRow_ok hb2 with ⟨_, hod2, _, hpf2, _, _, _, hoid2, _⟩
  rcases forall2_mem_left (mapME_ok_forall2 h₃) _ hr2 with ⟨r3, hr3, hb3⟩
  rcases cleanProfitRow_ok hb3 with ⟨hcc3, hod3, _, _, _, _, _, hoid3, _⟩
  have hpf3 : r3.profit = Cell.null := by
    rw [hpf2] at hcc3
    rw [show ({ r with
        category := fillna r.category (Cell.str "Uncategorized")
        salesPer := fillna r.salesPer (Cell.num 0) } : RawRow).profit
        = r.profit from rfl, hpn] at hcc3
    simp only [clean_currency] at hcc3
    injection hcc3 with hcc3
    exact hcc3.symm
  have hodr : r3.orderDate = r.orderDate := by
    rw [hod3, hod2]
  have hr4 : ({ r3 with orderDate := toDatetime r3.orderDate } : RawRow)
      ∈ dateStage t₃ := by
    refine List.mem_filter.mpr ⟨List.mem_map_of_mem _ hr3, ?_⟩
    rw [show ({ r3 with orderDate := toDatetime r3.orderDate } : RawRow).orderDate
        = toDatetime r3.orderDate from rfl, hodr, hdate]
    rfl
  rcases forall2_mem_left (mapME_ok_forall2 he) _ hr4 with ⟨rec, hrec, hene⟩
  rcases enrichRow_ok _ rec hene with ⟨y, m, d, _, _, _, _, hpu, _, hpm, _, _, hoid⟩
  refine ⟨rec, hrec, ?_, ?_, ?_⟩
  · rw [hpu]
    exact hpf3
  · rw [show ({ r3 with orderDate := toDatetime r3.orderDate } : RawRow).profit
        = r3.profit from rfl, hpf3] at hpm
    simp only [cellMul] at hpm
    injection hpm with hpm
    exact hpm.symm
  · rw [hoid, show ({ r3 with orderDate := toDatetime r3.orderDate } : RawRow).orderId
        = r3.orderId from rfl, hoid3, hoid2]

/-- C9: a missing (null) `Profit` never fails the run — the currency
parser returns non-strings unchanged and `Profit` has no fill rule —
and the row survives to the enriched output with null (NaN)
`Profit_USD` and `Profit_INR`. -/
theorem C9_missing_profit (t : List RawRow) :
    clean_currency Cell.null = Except.ok Cell.null ∧
    ((∀ r ∈ t, amountOk r.salesPer = true ∧ amountOk r.profit = true) →
      ∃ out, run t = Except.ok out) ∧
    ∀ out r, run t = Except.ok out → r ∈ t → r.profit = Cell.null →
      isNull (toDatetime r.orderDate) = false →
      ∃ rec ∈ out.records, rec.profit_USD = Cell.null ∧
        rec.profit_INR = Cell.null ∧ rec.orderId = r.orderId := by
  refine ⟨rfl, run_ok_of_amountOk t, ?_⟩
  intro out r h hr hpn hdate
  exact null_profit_surfaces h hr hpn hdate

/-- A single-row table whose `Profit` is missing (NaN). -/
def nullProfitTable : List RawRow :=
  [{ orderDate := Cell.str "2023-06-15", category := Cell.str "Office",
     salesPer := Cell.num 10, profit := Cell.null, segment := Cell.null,
     state := Cell.null, quantity := Cell.num 1, orderId := Cell.str "E1",
     customerId := Cell.null }]

/-- The record enriched from `nullProfitTable`: null profits survive. -/
def nullProfitRecord : Record :=
  { yearMonth := "2023-06", category := Cell.str "Office",
    segment := Cell.null, state := Cell.null, sales_INR := Cell.num 825,
    sales_USD := Cell.num 10, profit_INR := Cell.null,
    profit_USD := Cell.null, quantity := Cell.num 1,
    orderId := Cell.str "E1", customerId := Cell.null, ibr_Rate := 82.5 }

/-- The enriched output of `nullProfitTable`. -/
def nullProfitOutput : RunOutput :=
  { records := [nullProfitRecord], processedCount := 1, itemsSold := 1 }

/-- Witness for C9 on `nullProfitTable`. -/
theorem C9_missing_profit_witness :
    (∃ out, run nullProfitTable = Except.ok out) ∧
    ∃ rec ∈ nullProfitOutput.records, rec.profit_USD = Cell.null ∧
      rec.profit_INR = Cell.null ∧ rec.orderId = Cell.str "E1" :=
  ⟨(C9_missing_profit nullProfitTable).2.1 (by
      intro r hr
      simp only [nullProfitTable, List.mem_singleton] at hr
      subst hr
      exact ⟨rfl, rfl⟩),
   (C9_missing_profit nullProfitTable).2.2 nullProfitOutput _
     (by with_unfolding_all rfl) (List.mem_cons_self _ _) rfl
     (by with_unfolding_all rfl)⟩

/-- `fillna` is the identity on non-null cells. -/
theorem fillna_of_ne_null {c : Cell} (h : c ≠ Cell.null) (dflt : Cell) :
    fillna c dflt = c := by
  cases c with
  | null => exact absurd rfl h
  | str s => rfl
  | num q => rfl
  | date y m d => rfl

/-- `fillna` with a non-null default never yields null. -/
theorem fillna_ne_null {c dflt : Cell} (h : dflt ≠ Cell.null) :
    fillna c dflt ≠ Cell.null := by
  cases c with
  | null => exact h
  | str s => exact fun hc => Cell.noConfusion hc
  | num q => exact fun hc => Cell.noConfusion hc
  | date y m d => exact fun hc => Cell.noConfusion hc

/-- `clean_currency` is the identity on non-string cells. -/
theorem clean_currency_nonstr {c : Cell} (h : ∀ s, c ≠ Cell.str s) :
    clean_currency c = Except.ok c := by
  cases c with
  | str s => exact absurd rfl (h s)
  | null => rfl
  | num q => rfl
  | date y m d => rfl

/-- A value returned by `clean_currency` is never a string cell. -/
theorem clean_currency_ok_not_str {c v : Cell}
    (h : clean_currency c = Except.ok v) : ∀ s, v ≠ Cell.str s := by
  cases c with
  | str s₀ =>
    unfold clean_currency at h
    dsimp only at h
    split at h
    · injection h with h
      subst h
      exact fun s hc => Cell.noConfusion hc
    · exact absurd h (by simp)
  | null =>
    injection h with h
    subst h
    exact fun s hc => Cell.noConfusion hc
  | num q =>
    injection h with h
    subst h
    exact fun s hc => Cell.noConfusion hc
  | date y m d =>
    injection h with h
    subst h
    exact fun s hc => Cell.noConfusion hc

/-- `clean_currency` maps non-null cells to non-null cells. -/
theorem clean_currency_ok_not_null {c v : Cell}
    (h : clean_currency c = Except.ok v) (hc : c ≠ Cell.null) :
    v ≠ Cell.null := by
  cases c with
  | str s₀ =>
    unfold clean_currency at h
    dsimp only at h
    split at h
    · injection h with h
      subst h
      exact fun hv => Cell.noConfusion hv
    · exact absurd h (by simp)
  | null => exact absurd rfl hc
  | num q =>
    injection h with h
    subst h
    exact fun hv => Cell.noConfusion hv
  | date y m d =>
    injection h with h
    subst h
    exact fun hv => Cell.noConfusion hv

/-- `mapME` of a pointwise-identity action is the identity. -/
theorem mapME_congr_ok {α : Type} {f : α → Except PipeError α} :
    ∀ {l : List α}, (∀ a ∈ l, f a = Except.ok a) → mapME f l = Except.ok l := by
  intro l
  induction l with
  | nil => intro _; rfl
  | cons a tl ih =>
    intro hall
    rw [mapME, hall a (List.mem_cons_self a tl),
      ih (fun x hx => hall x (List.mem_cons_of_mem a hx))]

/-- The shape of a row after normalization: non-null `Category`,
non-null non-string `Sales Per`, non-string `Profit`, real date. -/
def NormalizedRow (r : RawRow) : Prop :=
  r.category ≠ Cell.null ∧
  (r.salesPer ≠ Cell.null ∧ ∀ s, r.salesPer ≠ Cell.str s) ∧
  (∀ s, r.profit ≠ Cell.str s) ∧
  ∃ y m d, r.orderDate = Cell.date y m d

/-- Every row produced by the Normalizer is of normalized shape. -/
theorem normalizeTable_rows_normalized {t t' : List RawRow}
    (h : normalizeTable t = Except.ok t') : ∀ r ∈ t', NormalizedRow r := by
  rcases normalizeTable_ok h with ⟨t₂, t₃, h₂, h₃, rfl⟩
  intro r hr
  have hdate := dateStage_mem hr
  rcases List.mem_filter.mp hr with ⟨hmem, _⟩
  rcases List.mem_map.mp hmem with ⟨r3, hr3, rfl⟩
  rcases forall2_mem_right (mapME_ok_forall2 h₃) _ hr3 with ⟨r2, hr2, hb3⟩
  rcases cleanProfitRow_ok hb3 with ⟨hccp, _, hcat3, hsp3, _⟩
  rcases forall2_mem_right (mapME_ok_forall2 h₂) _ hr2 with ⟨r1, hr1, hb2⟩
  rcases cleanSalesRow_ok hb2 with ⟨hccs, _, hcat2, _⟩
  rcases List.mem_map.mp hr1 with ⟨r0, _, rfl⟩
  refine ⟨?_, ⟨?_, ?_⟩, ?_, hdate⟩
  · show r3.category ≠ Cell.null
    rw [hcat3, hcat2]
    exact fillna_ne_null (fun hc => Cell.noConfusion hc)
  · show r3.salesPer ≠ Cell.null
    rw [hsp3]
    refine clean_currency_ok_not_null hccs ?_
    exact fillna_ne_null (fun hc => Cell.noConfusion hc)
  · show ∀ s, r3.salesPer ≠ Cell.str s
    rw [hsp3]
    exact clean_currency_ok_not_str hccs
  · show ∀ s, r3.profit ≠ Cell.str s
    exact clean_currency_ok_not_str hccp

/-- A table of normalized-shape rows is a fixed point of the
Normalizer: every stage is a no-op on it. -/
theorem normalizeTable_fixed {u : List RawRow}
    (hall : ∀ r ∈ u, NormalizedRow r) : normalizeTable u = Except.ok u := by
  have hfill : fillnaStage u = u := by
    have hcongr : u.map (fun r => { r with
        category := fillna r.category (Cell.str "Uncategorized")
        salesPer := fillna r.salesPer (Cell.num 0) }) = u.map id := by
      refine List.map_congr_left ?_
      intro a ha
      rcases hall a ha with ⟨hcat, hsp, _, _⟩
      show ({ a with
        category := fillna a.category (Cell.str "Uncategorized")
        salesPer := fillna a.salesPer (Cell.num 0) } : RawRow) = id a
      rw [fillna_of_ne_null hcat, fillna_of_ne_null hsp.1]
      rfl
    unfold fillnaStage
    rw [hcongr, List.map_id]
  have hcs : cleanSales u = Except.ok u := by
    refine mapME_congr_ok ?_
    intro a ha
    rcases hall a ha with ⟨_, hsp, _, _⟩
    unfold cleanSalesRow
    rw [clean_currency_nonstr hsp.2]
  have hcp : cleanProfit u = Except.ok u := by
    refine mapME_congr_ok ?_
    intro a ha
    rcases hall a ha with ⟨_, _, hpf, _⟩
    unfold cleanProfitRow
    rw [clean_currency_nonstr hpf]
  have hds : dateStage u = u := by
    unfold dateStage
    have hmapid : u.map
        (fun r => { r with orderDate := toDatetime r.orderDate }) = u.map id := by
      refine List.map_congr_left ?_
      intro a ha
      rcases hall a ha with ⟨_, _, _, y, m, d, hod⟩
      show ({ a with orderDate := toDatetime a.orderDate } : RawRow) = id a
      rw [show toDatetime a.orderDate = a.orderDate from by rw [hod]; rfl]
      rfl
    rw [hmapid, List.map_id]
    refine List.filter_eq_self.mpr ?_
    intro a ha
    rcases hall a ha with ⟨_, _, _, y, m, d, hod⟩
    rw [hod]
    rfl
  simp [normalizeTable, hfill, hcs, hcp, hds]

/-- C7: the Record Normalizer is idempotent — applied to a table that
is already its output (defaults filled, currencies parsed, dates
parsed, invalid-date rows dropped), it returns that table unchanged. -/
theorem C7_normalizer_idempotent (t t' : List RawRow)
    (h : normalizeTable t = Except.ok t') :
    normalizeTable t' = Except.ok t' :=
  normalizeTable_fixed (normalizeTable_rows_normalized h)

/-- A raw table exercising every normalization rule. -/
def c7Table : List RawRow :=
  [{ orderDate := Cell.str "2024-02-29", category := Cell.null,
     salesPer := Cell.str "₹1,000", profit := Cell.str "$7.5",
     segment := Cell.null, state := Cell.null, quantity := Cell.num 2,
     orderId := Cell.str "F1", customerId := Cell.null }]

/-- The Normalizer's output on `c7Table`. -/
def c7Normalized : List RawRow :=
  [{ orderDate := Cell.date 2024 2 29, category := Cell.str "Uncategorized",
     salesPer := Cell.num 1000, profit := Cell.num (15 / 2),
     segment := Cell.null, state := Cell.null, quantity := Cell.num 2,
     orderId := Cell.str "F1", customerId := Cell.null }]

/-- Witness for C7: normalizing the already-normalized `c7Normalized`
returns it unchanged. -/
theorem C7_normalizer_idempotent_witness :
    normalizeTable c7Normalized = Except.ok c7Normalized :=
  C7_normalizer_idempotent c7Table c7Normalized (by with_unfolding_all rfl)

/-- `String.toList` undoes `String.mk`. -/
theorem toList_mk (l : List Char) : (String.mk l).toList = l := rfl

/-- Stripping the currency symbols and separators twice is the same as
stripping them once: every character surviving the first pass already
passes each of the three deletions. -/
theorem stripSymbols_idem (s : String) :
    stripSymbols (stripSymbols s) = stripSymbols s := by
  simp only [stripSymbols, replaceChar, toList_mk]
  refine congrArg String.mk ?_
  have h1 : ∀ a ∈ ((s.toList.filter (fun x => x != '$')).filter
      (fun x => x != '₹')).filter (fun x => x != ','),
      (a != '$') = true ∧ (a != '₹') = true ∧ (a != ',') = true := by
    intro a ha
    rcases List.mem_filter.mp ha with ⟨hab, hc⟩
    rcases List.mem_filter.mp hab with ⟨haa, hb⟩
    rcases List.mem_filter.mp haa with ⟨_, hA⟩
    exact ⟨hA, hb, hc⟩
  rw [List.filter_eq_self.mpr (fun a ha => (h1 a ha).1),
    List.filter_eq_self.mpr (fun a ha => (h1 a ha).2.1),
    List.filter_eq_self.mpr (fun a ha => (h1 a ha).2.2)]

/-- C4: `clean_currency` returns already-numeric input unchanged, and a
textual amount parses to the same result as its symbol- and
separator-free form (stripping `$`, `₹`, `,` commutes with parsing). -/
theorem C4_parse_amount :
    (∀ q : ℚ, clean_currency (Cell.num q) = Except.ok (Cell.num q)) ∧
    ∀ s : String, clean_currency (Cell.str s) =
      clean_currency (Cell.str (stripSymbols s)) := by
  refine ⟨fun q => rfl, fun s => ?_⟩
  simp only [clean_currency, stripSymbols_idem]

/-- Witness for C4 on `"$1,200.50"`: it parses exactly like
`"1200.50"`, to the float 1200.50. -/
theorem C4_parse_amount_witness :
    clean_currency (Cell.str "$1,200.50") =
      clean_currency (Cell.str (stripSymbols "$1,200.50")) ∧
    stripSymbols "$1,200.50" = "1200.50" ∧
    clean_currency (Cell.str "1200.50") =
      Except.ok (Cell.num (120050 / 100)) :=
  ⟨C4_parse_amount.2 "$1,200.50", by with_unfolding_all rfl,
   by with_unfolding_all rfl⟩
